import Mathlib

/-!
# A shallow embedding of the OpSpawn orchestrator state-mutation engine

This file embeds the engine operations of `src/orchestrator.js` as pure Lean
functions and proves the specified properties about them.

Modelling conventions:
* Timestamps are `Nat` milliseconds; each operation takes the current time
  `now` as an explicit argument (the code calls `new Date()` / `Date.now()`).
* JavaScript objects used as string-keyed maps (`state.workstreams`,
  `state.agents`, `state.locks`) become association lists with the object
  update semantics (replace in place, otherwise append).
* The persisted world is a `Sys`: the state document plus the append-only
  event journal.  Every operation returns its result together with the
  resulting `Sys`; failing paths return the input `Sys` unchanged, mirroring
  the fact that the code raises (or returns `false`) before any write.
* JavaScript truthiness (`x || d`, `if (opts.f)`) is modelled explicitly:
  `""` and `0` are falsy.
* Randomness (`crypto.randomBytes(4)`) becomes an explicit byte-list argument.
-/

namespace Orchestrator

/-- A task record (`addTask` in src/orchestrator.js). -/
structure Task where
  id : String
  title : String
  description : String
  status : String
  priority : Int
  estimate : Option String
  assigned_to : Option String
  created_at : Nat
  updated_at : Nat
  result : Option String
deriving Repr, DecidableEq

/-- A workstream record (`createWorkstream`). -/
structure Workstream where
  description : String
  priority : Int
  status : String
  tasks : List Task
  created_at : Nat
deriving Repr, DecidableEq

/-- An agent record (`registerAgent`). -/
structure Agent where
  type : String
  status : String
  capabilities : List String
  registered_at : Nat
  last_seen : Nat
deriving Repr, DecidableEq

/-- A lock record (`acquireLock`). -/
structure Lock where
  agent : String
  acquired_at : Nat
  ttl_ms : Nat
deriving Repr, DecidableEq

/-- The shared state document stored in `state.json`. -/
structure State where
  version : Nat
  updated_at : Nat
  workstreams : List (String × Workstream)
  agents : List (String × Agent)
  locks : List (String × Lock)
deriving Repr, DecidableEq

/-- One journal record in `events.jsonl`; `data` holds the action-specific
fields (`none` renders as JSON `null`). -/
structure Event where
  ts : Nat
  agent : String
  action : String
  data : List (String × Option String)
deriving Repr, DecidableEq

/-- The whole persisted world: state document plus event journal. -/
structure Sys where
  state : State
  journal : List Event
deriving Repr, DecidableEq

/-- Key lookup in a JS object modelled as an association list. -/
def alookup {α : Type} : List (String × α) → String → Option α
  | [], _ => none
  | (k, v) :: rest, key => if k = key then some v else alookup rest key

/-- Key assignment in a JS object: replace in place if present, else append. -/
def aset {α : Type} : List (String × α) → String → α → List (String × α)
  | [], key, v => [(key, v)]
  | (k, w) :: rest, key, v =>
    if k = key then (key, v) :: rest else (k, w) :: aset rest key v

/-- `delete obj[key]` on a JS object. -/
def aremove {α : Type} : List (String × α) → String → List (String × α)
  | [], _ => []
  | (k, w) :: rest, key => if k = key then rest else (k, w) :: aremove rest key

/-- JavaScript `a || b` for an optional string: `undefined` and `""` are falsy. -/
def jsOrString (a : Option String) (b : String) : String :=
  match a with
  | none => b
  | some s => if s = "" then b else s

/-- JavaScript `a || b` for an optional integer: `undefined` and `0` are falsy. -/
def jsOrInt (a : Option Int) (b : Int) : Int :=
  match a with
  | none => b
  | some p => if p = 0 then b else p

/-- JavaScript `a || null` for an optional string (`opts.estimate || null`). -/
def jsOrNull (a : Option String) : Option String :=
  match a with
  | none => none
  | some s => if s = "" then none else some s

/-- The error taxonomy of the raised engine errors (spec section 7). -/
inductive Err where
  | notFound (msg : String)
  | invalidState (msg : String)
  | alreadyExists (msg : String)
deriving Repr, DecidableEq

/-- `saveState` (orchestrator.js line 69): stamps `updated_at` with the save
time and increments `version`, then rewrites the whole document. -/
def saveState (now : Nat) (s : State) : State :=
  { s with updated_at := now, version := s.version + 1 }

/-- `logEvent` (line 81): appends one record to the journal. -/
def logEvent (now : Nat) (agentId action : String)
    (data : List (String × Option String)) (j : List Event) : List Event :=
  j ++ [{ ts := now, agent := agentId, action := action, data := data }]

/-- One lowercase hexadecimal digit. -/
def hexDigit (n : Nat) : Char :=
  "0123456789abcdef".toList.getD n '0'

/-- Two-digit lowercase hex rendering of one byte (`Buffer.toString('hex')`). -/
def byteToHex (b : Nat) : List Char :=
  [hexDigit (b / 16 % 16), hexDigit (b % 16)]

/-- `genId` (line 75): lowercase hex encoding of the four random bytes;
the bytes are passed explicitly. -/
def genId (bytes : List Nat) : String :=
  String.mk (bytes.map byteToHex).flatten

/-- Options object of `createWorkstream`. -/
structure WorkstreamOpts where
  description : Option String
  priority : Option Int
deriving Repr, DecidableEq

/-- Options object of `addTask`. -/
structure TaskOpts where
  title : String
  description : Option String
  priority : Option Int
  estimate : Option String
deriving Repr, DecidableEq

/-- Options object of `registerAgent`. -/
structure AgentOpts where
  type : Option String
  capabilities : Option (List String)
deriving Repr, DecidableEq

/-- `createWorkstream` (line 110). -/
def createWorkstream (now : Nat) (name : String) (opts : WorkstreamOpts)
    (sys : Sys) : Except Err Workstream × Sys :=
  match alookup sys.state.workstreams name with
  | some _ =>
    (.error (.alreadyExists ("Workstream \"" ++ name ++ "\" already exists")), sys)
  | none =>
    let ws : Workstream :=
      { description := jsOrString opts.description ""
        priority := jsOrInt opts.priority 5
        status := "active"
        tasks := []
        created_at := now }
    let st := saveState now
      { sys.state with workstreams := aset sys.state.workstreams name ws }
    (.ok ws,
     { state := st
       journal := logEvent now "system" "workstream_created"
         [("workstream", some name)] sys.journal })

/-- `addTask` (line 141). -/
def addTask (now : Nat) (idBytes : List Nat) (workstream : String)
    (opts : TaskOpts) (sys : Sys) : Except Err Task × Sys :=
  match alookup sys.state.workstreams workstream with
  | none =>
    (.error (.notFound ("Workstream \"" ++ workstream ++ "\" not found")), sys)
  | some ws =>
    let task : Task :=
      { id := genId idBytes
        title := opts.title
        description := jsOrString opts.description ""
        status := "pending"
        priority := jsOrInt opts.priority 5
        estimate := jsOrNull opts.estimate
        assigned_to := none
        created_at := now
        updated_at := now
        result := none }
    let ws2 := { ws with tasks := ws.tasks ++ [task] }
    let st := saveState now
      { sys.state with workstreams := aset sys.state.workstreams workstream ws2 }
    (.ok task,
     { state := st
       journal := logEvent now "system" "task_created"
         [("workstream", some workstream), ("task_id", some task.id),
          ("title", some task.title)] sys.journal })

/-- Replace the first task carrying the given id (the code mutates the object
returned by `Array.prototype.find`, i.e. the first match). -/
def replaceTask : List Task → String → Task → List Task
  | [], _, _ => []
  | t :: rest, taskId, t2 =>
    if t.id = taskId then t2 :: rest else t :: replaceTask rest taskId t2

/-- The task mutation performed by `claimTask` (lines 173-175): status
`in_progress`, `assigned_to` the claiming agent, `updated_at` bumped. -/
def claimedTask (now : Nat) (agentId : String) (task : Task) : Task :=
  { task with status := "in_progress", assigned_to := some agentId, updated_at := now }

/-- The task mutation performed by `completeTask` (lines 189-191): status
`done`, `result` set, `updated_at` bumped. -/
def completedTask (now : Nat) (res : Option String) (task : Task) : Task :=
  { task with status := "done", result := res, updated_at := now }

/-- `claimTask` (line 164). -/
def claimTask (now : Nat) (workstream taskId agentId : String) (sys : Sys) :
    Except Err Task × Sys :=
  match alookup sys.state.workstreams workstream with
  | none =>
    (.error (.notFound ("Workstream \"" ++ workstream ++ "\" not found")), sys)
  | some ws =>
    match ws.tasks.find? (fun t => t.id == taskId) with
    | none => (.error (.notFound ("Task \"" ++ taskId ++ "\" not found")), sys)
    | some task =>
      if task.status ≠ "pending" then
        (.error (.invalidState
          ("Task \"" ++ taskId ++ "\" is " ++ task.status ++ ", not pending")), sys)
      else
        let t2 := claimedTask now agentId task
        let ws2 := { ws with tasks := replaceTask ws.tasks taskId t2 }
        let st := saveState now
          { sys.state with workstreams := aset sys.state.workstreams workstream ws2 }
        (.ok t2,
         { state := st
           journal := logEvent now agentId "task_claimed"
             [("workstream", some workstream), ("task_id", some taskId)]
             sys.journal })

/-- `completeTask` (line 181). -/
def completeTask (now : Nat) (workstream taskId : String) (result : Option String)
    (sys : Sys) : Except Err Task × Sys :=
  match alookup sys.state.workstreams workstream with
  | none =>
    (.error (.notFound ("Workstream \"" ++ workstream ++ "\" not found")), sys)
  | some ws =>
    match ws.tasks.find? (fun t => t.id == taskId) with
    | none => (.error (.notFound ("Task \"" ++ taskId ++ "\" not found")), sys)
    | some task =>
      let t2 := completedTask now result task
      let ws2 := { ws with tasks := replaceTask ws.tasks taskId t2 }
      let st := saveState now
        { sys.state with workstreams := aset sys.state.workstreams workstream ws2 }
      (.ok t2,
       { state := st
         journal := logEvent now (jsOrString task.assigned_to "system")
           "task_completed"
           [("workstream", some workstream), ("task_id", some taskId),
            ("result", result)] sys.journal })

/-- Stable insertion of a task into a priority-sorted list (ties keep the
earlier task first). -/
def insertByPriority (t : Task) : List Task → List Task
  | [] => [t]
  | u :: rest =>
    if t.priority ≤ u.priority then t :: u :: rest else u :: insertByPriority t rest

/-- Stable ascending sort of tasks by `priority`, the behaviour of the
(specified-stable) `Array.prototype.sort((a, b) => a.priority - b.priority)`. -/
def sortByPriority : List Task → List Task
  | [] => []
  | t :: rest => insertByPriority t (sortByPriority rest)

/-- `getNextTask` (line 197); the "no task" sentinel is `.ok none`. -/
def getNextTask (now : Nat) (workstream agentId : String) (sys : Sys) :
    Except Err (Option Task) × Sys :=
  match alookup sys.state.workstreams workstream with
  | none =>
    (.error (.notFound ("Workstream \"" ++ workstream ++ "\" not found")), sys)
  | some ws =>
    match sortByPriority (ws.tasks.filter (fun t => t.status == "pending")) with
    | [] => (.ok none, sys)
    | t :: _ =>
      match claimTask now workstream t.id agentId sys with
      | (.ok t2, sys2) => (.ok (some t2), sys2)
      | (.error e, sys2) => (.error e, sys2)

/-- `registerAgent` (line 212): unconditional create-or-overwrite. -/
def registerAgent (now : Nat) (agentId : String) (opts : AgentOpts) (sys : Sys) :
    Agent × Sys :=
  let a : Agent :=
    { type := jsOrString opts.type "general"
      status := "active"
      capabilities := opts.capabilities.getD []
      registered_at := now
      last_seen := now }
  let st := saveState now { sys.state with agents := aset sys.state.agents agentId a }
  (a,
   { state := st
     journal := logEvent now agentId "agent_registered"
       (match opts.type with
        | some t => [("type", some t)]
        | none => []) sys.journal })

/-- `heartbeat` (line 226): refreshes an existing agent, silently no-ops on a
missing one; journals nothing. -/
def heartbeat (now : Nat) (agentId : String) (sys : Sys) : Sys :=
  match alookup sys.state.agents agentId with
  | none => sys
  | some a =>
    let a2 := { a with last_seen := now, status := "active" }
    { sys with
      state := saveState now { sys.state with agents := aset sys.state.agents agentId a2 } }

/-- `acquireLock` (line 237). -/
def acquireLock (now : Nat) (resource agentId : String) (ttlMs : Nat) (sys : Sys) :
    Bool × Sys :=
  let denied :=
    match alookup sys.state.locks resource with
    | some l => decide (now < l.acquired_at + l.ttl_ms) && (l.agent != agentId)
    | none => false
  if denied then
    (false, sys)
  else
    let st := saveState now
      { sys.state with
        locks := aset sys.state.locks resource
          { agent := agentId, acquired_at := now, ttl_ms := ttlMs } }
    (true,
     { state := st
       journal := logEvent now agentId "lock_acquired"
         [("resource", some resource)] sys.journal })

/-- `releaseLock` (line 258). -/
def releaseLock (now : Nat) (resource agentId : String) (sys : Sys) : Bool × Sys :=
  match alookup sys.state.locks resource with
  | some l =>
    if l.agent = agentId then
      let st := saveState now
        { sys.state with locks := aremove sys.state.locks resource }
      (true,
       { state := st
         journal := logEvent now agentId "lock_released"
           [("resource", some resource)] sys.journal })
    else (false, sys)
  | none => (false, sys)

/-- Query options object of `getEvents`. -/
structure QueryOpts where
  agent : Option String
  action : Option String
  since : Option Nat
  last : Option Nat
deriving Repr, DecidableEq

/-- `getEvents` (line 92): sequential truthiness-guarded filters, then
`slice(-last)` when `last` is truthy. -/
def getEvents (opts : QueryOpts) (events : List Event) : List Event :=
  let e1 := match opts.agent with
    | some a => if a = "" then events else events.filter (fun e => e.agent == a)
    | none => events
  let e2 := match opts.action with
    | some a => if a = "" then e1 else e1.filter (fun e => e.action == a)
    | none => e1
  let e3 := match opts.since with
    | some s => if s = 0 then e2 else e2.filter (fun e => s ≤ e.ts)
    | none => e2
  match opts.last with
  | some n => if n = 0 then e3 else e3.drop (e3.length - n)
  | none => e3

/-! ## Concrete systems used by witnesses and counterexamples -/

/-- The freshly initialised system: version 0, empty maps, empty journal. -/
def sysEmpty : Sys := ⟨⟨0, 0, [], [], []⟩, []⟩

/-- The workstream produced by `createWorkstream 5 "w" ⟨none, none⟩ sysEmpty`. -/
def wsWit : Workstream := ⟨"", 5, "active", [], 5⟩

/-- The system produced by `createWorkstream 5 "w" ⟨none, none⟩ sysEmpty`. -/
def sysWit : Sys :=
  ⟨⟨1, 5, [("w", wsWit)], [], []⟩,
   [⟨5, "system", "workstream_created", [("workstream", some "w")]⟩]⟩

/-! ## C1: version increment and save-time stamping -/

/-- C1: every mutating operation that completes successfully (createWorkstream,
addTask, claimTask, completeTask, getNextTask when it claims a task,
registerAgent, heartbeat on an existing agent, successful acquireLock,
successful releaseLock) yields a persisted state whose `version` is exactly the
old `version + 1` and whose `updated_at` is the save time; and `updated_at` is
non-decreasing across successive saves performed at non-decreasing times. -/
theorem version_and_updatedAt_per_save (now : Nat) (sys : Sys) :
    (∀ name opts ws sys2, createWorkstream now name opts sys = (.ok ws, sys2) →
      sys2.state.version = sys.state.version + 1 ∧ sys2.state.updated_at = now) ∧
    (∀ bytes w opts t sys2, addTask now bytes w opts sys = (.ok t, sys2) →
      sys2.state.version = sys.state.version + 1 ∧ sys2.state.updated_at = now) ∧
    (∀ w tid a t sys2, claimTask now w tid a sys = (.ok t, sys2) →
      sys2.state.version = sys.state.version + 1 ∧ sys2.state.updated_at = now) ∧
    (∀ w tid r t sys2, completeTask now w tid r sys = (.ok t, sys2) →
      sys2.state.version = sys.state.version + 1 ∧ sys2.state.updated_at = now) ∧
    (∀ w a t sys2, getNextTask now w a sys = (.ok (some t), sys2) →
      sys2.state.version = sys.state.version + 1 ∧ sys2.state.updated_at = now) ∧
    (∀ a opts, (registerAgent now a opts sys).2.state.version = sys.state.version + 1 ∧
      (registerAgent now a opts sys).2.state.updated_at = now) ∧
    (∀ a, (alookup sys.state.agents a).isSome →
      (heartbeat now a sys).state.version = sys.state.version + 1 ∧
      (heartbeat now a sys).state.updated_at = now) ∧
    (∀ r a ttl sys2, acquireLock now r a ttl sys = (true, sys2) →
      sys2.state.version = sys.state.version + 1 ∧ sys2.state.updated_at = now) ∧
    (∀ r a sys2, releaseLock now r a sys = (true, sys2) →
      sys2.state.version = sys.state.version + 1 ∧ sys2.state.updated_at = now) ∧
    (∀ (s : State) (n1 n2 : Nat), n1 ≤ n2 →
      (saveState n1 s).updated_at ≤ (saveState n2 (saveState n1 s)).updated_at) := by
  have hclaim : ∀ w tid a t sys2, claimTask now w tid a sys = (.ok t, sys2) →
      sys2.state.version = sys.state.version + 1 ∧ sys2.state.updated_at = now := by
    intro w tid a t sys2 h
    simp only [claimTask] at h
    split at h
    · simp at h
    · split at h
      · simp at h
      · split at h
        · simp at h
        · rw [Prod.mk.injEq] at h
          obtain ⟨-, h2⟩ := h
          subst h2
          exact ⟨rfl, rfl⟩
  refine ⟨?_, ?_, hclaim, ?_, ?_, ?_, ?_, ?_, ?_, ?_⟩
  · intro name opts ws sys2 h
    simp only [createWorkstream] at h
    split at h
    · simp at h
    · rw [Prod.mk.injEq] at h
      obtain ⟨-, h2⟩ := h
      subst h2
      exact ⟨rfl, rfl⟩
  · intro bytes w opts t sys2 h
    simp only [addTask] at h
    split at h
    · simp at h
    · rw [Prod.mk.injEq] at h
      obtain ⟨-, h2⟩ := h
      subst h2
      exact ⟨rfl, rfl⟩
  · intro w tid r t sys2 h
    simp only [completeTask] at h
    split at h
    · simp at h
    · split at h
      · simp at h
      · rw [Prod.mk.injEq] at h
        obtain ⟨-, h2⟩ := h
        subst h2
        exact ⟨rfl, rfl⟩
  · intro w a t sys2 h
    simp only [getNextTask] at h
    split at h
    · simp at h
    · split at h
      · simp at h
      · split at h
        · rename_i t2 sys2' heq
          rw [Prod.mk.injEq] at h
          obtain ⟨-, h2⟩ := h
          subst h2
          exact hclaim _ _ _ _ _ heq
        · simp at h
  · intro a opts
    exact ⟨rfl, rfl⟩
  · intro a h
    simp only [heartbeat]
    split
    · rename_i heq
      rw [heq] at h
      simp at h
    · exact ⟨rfl, rfl⟩
  · intro r a ttl sys2 h
    simp only [acquireLock] at h
    split at h
    · simp at h
    · rw [Prod.mk.injEq] at h
      obtain ⟨-, h2⟩ := h
      subst h2
      exact ⟨rfl, rfl⟩
  · intro r a sys2 h
    simp only [releaseLock] at h
    split at h
    · split at h
      · rw [Prod.mk.injEq] at h
        obtain ⟨-, h2⟩ := h
        subst h2
        exact ⟨rfl, rfl⟩
      · simp at h
    · simp at h
  · intro s n1 n2 h
    simpa [saveState] using h

/-- Witness for C1: a concrete successful `createWorkstream` on the empty
system bumps the version from 0 to 1 and stamps `updated_at` with the save
time 5. -/
theorem version_and_updatedAt_per_save_witness :
    sysWit.state.version = sysEmpty.state.version + 1 ∧
      sysWit.state.updated_at = 5 :=
  (version_and_updatedAt_per_save 5 sysEmpty).1 "w" ⟨none, none⟩ wsWit sysWit rfl

/-! ## Association-list lemmas -/

theorem alookup_aset {α : Type} (m : List (String × α)) (k : String) (v : α) :
    alookup (aset m k v) k = some v := by
  induction m with
  | nil => simp [aset, alookup]
  | cons p rest ih =>
    obtain ⟨k2, v2⟩ := p
    by_cases h : k2 = k
    · simp [aset, h, alookup]
    · simp [aset, h, alookup, ih]

theorem alookup_eq_none_of_not_mem {α : Type} (m : List (String × α)) (k : String)
    (h : k ∉ m.map Prod.fst) : alookup m k = none := by
  induction m with
  | nil => rfl
  | cons p rest ih =>
    obtain ⟨k2, v2⟩ := p
    simp only [List.map_cons, List.mem_cons] at h
    push_neg at h
    have hne : ¬ (k2 = k) := fun hk => h.1 hk.symm
    simp only [alookup, if_neg hne]
    exact ih h.2

theorem alookup_aremove_of_nodup {α : Type} (m : List (String × α)) (k : String)
    (h : (m.map Prod.fst).Nodup) : alookup (aremove m k) k = none := by
  induction m with
  | nil => rfl
  | cons p rest ih =>
    obtain ⟨k2, v2⟩ := p
    simp only [List.map_cons, List.nodup_cons] at h
    by_cases hk : k2 = k
    · subst hk
      simp only [aremove, if_pos rfl]
      exact alookup_eq_none_of_not_mem rest k2 h.1
    · simp only [aremove, if_neg hk, alookup, if_neg hk]
      exact ih h.2

/-! ## C2: acquireLock grant condition -/

/-- Transcription of C2's stated grant condition, following the spec's words:
no lock entry for the resource, or the existing entry has expired in the
strict sense `acquiredAt + ttlMs < now`, or the existing holder is the
caller. -/
def acquireGrantClaimed (now : Nat) (resource agentId : String) (sys : Sys) : Prop :=
  alookup sys.state.locks resource = none ∨
  (∃ l, alookup sys.state.locks resource = some l ∧ l.acquired_at + l.ttl_ms < now) ∨
  (∃ l, alookup sys.state.locks resource = some l ∧ l.agent = agentId)

/-- System holding one lock on "r" by agent "b", acquired at 0 with ttl 5. -/
def sysCexC2 : Sys := ⟨⟨0, 0, [], [], [("r", ⟨"b", 0, 5⟩)]⟩, []⟩

/-- Counterexample to C2 as stated: at `now = 5` the lock on "r"
(acquired at 0, ttl 5) satisfies neither disjunct of the claimed grant
condition — it is not expired in the strict sense (0 + 5 < 5 is false) and the
holder differs — yet `acquireLock` succeeds, because the code denies only when
`now < acquiredAt + ttlMs` is strict. -/
theorem acquireLock_strict_expiry_cex :
    (acquireLock 5 "r" "a" 5 sysCexC2).1 = true ∧
      ¬ acquireGrantClaimed 5 "r" "a" sysCexC2 := by
  constructor
  · rfl
  · intro h
    rcases h with h | ⟨l, hl, hexp⟩ | ⟨l, hl, hag⟩
    · exact absurd h (by decide)
    · have : l = (⟨"b", 0, 5⟩ : Lock) := by
        have : alookup sysCexC2.state.locks "r" = some ⟨"b", 0, 5⟩ := by rfl
        rw [this] at hl
        exact (Option.some.injEq _ _ ▸ hl).symm
      subst this
      simp at hexp
    · have : l = (⟨"b", 0, 5⟩ : Lock) := by
        have : alookup sysCexC2.state.locks "r" = some ⟨"b", 0, 5⟩ := by rfl
        rw [this] at hl
        exact (Option.some.injEq _ _ ▸ hl).symm
      subst this
      simp at hag

/-- C2 (amended): `acquireLock` succeeds iff there is no lock entry for the
resource, or the existing entry's expiry has been reached
(`acquiredAt + ttlMs ≤ now`, non-strict), or the existing holder equals the
caller; on success it writes a fresh lock record with the new `acquiredAt` and
the given `ttlMs`, persists (version + 1, `updated_at` = now), and journals
`lock_acquired`. -/
theorem acquireLock_grant_iff (now : Nat) (resource agentId : String)
    (ttlMs : Nat) (sys : Sys) :
    ((acquireLock now resource agentId ttlMs sys).1 = true ↔
      alookup sys.state.locks resource = none ∨
      (∃ l, alookup sys.state.locks resource = some l ∧
        l.acquired_at + l.ttl_ms ≤ now) ∨
      (∃ l, alookup sys.state.locks resource = some l ∧ l.agent = agentId)) ∧
    (∀ sys2, acquireLock now resource agentId ttlMs sys = (true, sys2) →
      alookup sys2.state.locks resource = some ⟨agentId, now, ttlMs⟩ ∧
      sys2.state.version = sys.state.version + 1 ∧
      sys2.state.updated_at = now ∧
      sys2.journal = sys.journal ++
        [⟨now, agentId, "lock_acquired", [("resource", some resource)]⟩]) := by
  constructor
  · simp only [acquireLock]
    cases hl : alookup sys.state.locks resource with
    | none => simp [hl]
    | some l =>
      simp only [hl]
      constructor
      · intro h
        by_cases h1 : now < l.acquired_at + l.ttl_ms
        · by_cases h2 : l.agent = agentId
          · exact Or.inr (Or.inr ⟨l, rfl, h2⟩)
          · exfalso
            have hd : (decide (now < l.acquired_at + l.ttl_ms) &&
                (l.agent != agentId)) = true := by simp [h1, h2]
            simp only [hd] at h
            simp at h
        · exact Or.inr (Or.inl ⟨l, rfl, by omega⟩)
      · rintro (hnone | ⟨l2, hl2, hexp⟩ | ⟨l2, hl2, hag⟩)
        · exact absurd hnone (by simp)
        · rw [Option.some.injEq] at hl2
          subst hl2
          have h1 : ¬ now < l.acquired_at + l.ttl_ms := by omega
          have hd : (decide (now < l.acquired_at + l.ttl_ms) &&
              (l.agent != agentId)) = false := by simp [h1]
          simp only [hd]
          simp
        · rw [Option.some.injEq] at hl2
          subst hl2
          have hd : (decide (now < l.acquired_at + l.ttl_ms) &&
              (l.agent != agentId)) = false := by simp [hag]
          simp only [hd]
          simp
  · intro sys2 h
    simp only [acquireLock] at h
    split at h
    · simp at h
    · rw [Prod.mk.injEq] at h
      obtain ⟨-, h2⟩ := h
      subst h2
      refine ⟨alookup_aset _ _ _, rfl, rfl, rfl⟩

/-- The system produced by a successful `acquireLock 7 "r" "a" 9 sysEmpty`. -/
def sysLockWit : Sys :=
  ⟨⟨1, 7, [], [], [("r", ⟨"a", 7, 9⟩)]⟩,
   [⟨7, "a", "lock_acquired", [("resource", some "r")]⟩]⟩

/-- Witness for C2 (amended): a concrete successful acquire on the empty
system writes the fresh lock record, bumps the version and journals the
event. -/
theorem acquireLock_grant_iff_witness :
    alookup sysLockWit.state.locks "r" = some ⟨"a", 7, 9⟩ ∧
      sysLockWit.state.version = sysEmpty.state.version + 1 ∧
      sysLockWit.state.updated_at = 7 ∧
      sysLockWit.journal = sysEmpty.journal ++
        [⟨7, "a", "lock_acquired", [("resource", some "r")]⟩] :=
  (acquireLock_grant_iff 7 "r" "a" 9 sysEmpty).2 sysLockWit rfl

/-! ## C9: expired or zero-ttl locks are immediately acquirable -/

/-- C9: if the lock entry on a resource was acquired with `ttl_ms = 0` (and
acquired no later than now), or its expiry time `acquired_at + ttl_ms` lies in
the past, then `acquireLock` by a different agent succeeds immediately and
overwrites the entry with a fresh record. -/
theorem acquireLock_expired_is_free (now : Nat) (resource a2 : String)
    (ttlMs : Nat) (sys : Sys) (l : Lock)
    (hl : alookup sys.state.locks resource = some l)
    (hdiff : l.agent ≠ a2)
    (hexp : (l.ttl_ms = 0 ∧ l.acquired_at ≤ now) ∨ l.acquired_at + l.ttl_ms < now) :
    (acquireLock now resource a2 ttlMs sys).1 = true ∧
      alookup (acquireLock now resource a2 ttlMs sys).2.state.locks resource =
        some ⟨a2, now, ttlMs⟩ := by
  have hnot : ¬ now < l.acquired_at + l.ttl_ms := by omega
  have hd : (decide (now < l.acquired_at + l.ttl_ms) && (l.agent != a2)) = false := by
    simp [hnot]
  simp only [acquireLock, hl, hd]
  exact ⟨by simp, by simp [saveState, alookup_aset]⟩

/-- System holding an expired zero-ttl lock on "r" held by "b". -/
def sysTtlZero : Sys := ⟨⟨0, 0, [], [], [("r", ⟨"b", 0, 0⟩)]⟩, []⟩

/-- Witness for C9: the zero-ttl lock held by "b" is immediately taken over
by "a" at time 3. -/
theorem acquireLock_expired_is_free_witness :
    (acquireLock 3 "r" "a" 60000 sysTtlZero).1 = true ∧
      alookup (acquireLock 3 "r" "a" 60000 sysTtlZero).2.state.locks "r" =
        some ⟨"a", 3, 60000⟩ :=
  acquireLock_expired_is_free 3 "r" "a" 60000 sysTtlZero ⟨"b", 0, 0⟩ rfl
    (by decide) (Or.inl ⟨rfl, by decide⟩)

/-! ## C10: releaseLock ignores expiry -/

/-- C10: whenever a lock entry for the resource exists and its holder is the
caller — including when the lock has already expired — `releaseLock` returns
success, deletes the entry, persists and journals `lock_released`; expiry is
never consulted. -/
theorem releaseLock_ignores_expiry (now : Nat) (resource a : String) (sys : Sys)
    (l : Lock)
    (hl : alookup sys.state.locks resource = some l)
    (hag : l.agent = a)
    (hkeys : (sys.state.locks.map Prod.fst).Nodup) :
    (releaseLock now resource a sys).1 = true ∧
      alookup (releaseLock now resource a sys).2.state.locks resource = none ∧
      (releaseLock now resource a sys).2.state.version = sys.state.version + 1 ∧
      (releaseLock now resource a sys).2.journal = sys.journal ++
        [⟨now, a, "lock_released", [("resource", some resource)]⟩] := by
  simp only [releaseLock, hl, hag, if_pos rfl]
  exact ⟨rfl, alookup_aremove_of_nodup _ _ hkeys, rfl, rfl⟩

/-- System holding a long-expired lock on "r" held by "a" (acquired at 0 with
ttl 1; at time 100 its expiry 1 is far in the past). -/
def sysExpired : Sys := ⟨⟨0, 0, [], [], [("r", ⟨"a", 0, 1⟩)]⟩, []⟩

/-- Witness for C10: releasing the long-expired lock still succeeds and
deletes the entry. -/
theorem releaseLock_ignores_expiry_witness :
    (releaseLock 100 "r" "a" sysExpired).1 = true ∧
      alookup (releaseLock 100 "r" "a" sysExpired).2.state.locks "r" = none ∧
      (releaseLock 100 "r" "a" sysExpired).2.state.version =
        sysExpired.state.version + 1 ∧
      (releaseLock 100 "r" "a" sysExpired).2.journal = sysExpired.journal ++
        [⟨100, "a", "lock_released", [("resource", some "r")]⟩] :=
  releaseLock_ignores_expiry 100 "r" "a" sysExpired ⟨"a", 0, 1⟩ rfl rfl
    (by simp [sysExpired])

/-! ## Shared characterisation of the successful claimTask path -/

theorem claimTask_ok_eq (now : Nat) (w tid a : String) (sys : Sys)
    (ws : Workstream) (task : Task)
    (hw : alookup sys.state.workstreams w = some ws)
    (hf : ws.tasks.find? (fun t => t.id == tid) = some task)
    (hp : task.status = "pending") :
    claimTask now w tid a sys =
      (.ok (claimedTask now a task),
       ⟨saveState now { sys.state with
          workstreams := aset sys.state.workstreams w
            { ws with tasks := replaceTask ws.tasks tid (claimedTask now a task) } },
        sys.journal ++
          [⟨now, a, "task_claimed",
            [("workstream", some w), ("task_id", some tid)]⟩]⟩) := by
  simp only [claimTask, hw, hf, hp]
  simp [logEvent]

/-! ## C3: claimTask error handling and state transition -/

/-- C3: `claimTask` raises NotFound when the workstream or the task is
absent, raises InvalidState when the task's status is not `pending`, and
otherwise returns the task with status `in_progress`, `assigned_to` set to
the agent and `updated_at` bumped, stores that task back in the workstream,
persists (version + 1), and journals `task_claimed`. -/
theorem claimTask_errors_and_success (now : Nat) (w tid a : String) (sys : Sys) :
    (alookup sys.state.workstreams w = none →
      claimTask now w tid a sys =
        (.error (.notFound ("Workstream \"" ++ w ++ "\" not found")), sys)) ∧
    (∀ ws, alookup sys.state.workstreams w = some ws →
      ws.tasks.find? (fun t => t.id == tid) = none →
      claimTask now w tid a sys =
        (.error (.notFound ("Task \"" ++ tid ++ "\" not found")), sys)) ∧
    (∀ ws task, alookup sys.state.workstreams w = some ws →
      ws.tasks.find? (fun t => t.id == tid) = some task →
      task.status ≠ "pending" →
      claimTask now w tid a sys =
        (.error (.invalidState
          ("Task \"" ++ tid ++ "\" is " ++ task.status ++ ", not pending")), sys)) ∧
    (∀ ws task, alookup sys.state.workstreams w = some ws →
      ws.tasks.find? (fun t => t.id == tid) = some task →
      task.status = "pending" →
      (claimTask now w tid a sys).1 = .ok (claimedTask now a task) ∧
      (claimedTask now a task).status = "in_progress" ∧
      (claimedTask now a task).assigned_to = some a ∧
      (claimedTask now a task).updated_at = now ∧
      alookup (claimTask now w tid a sys).2.state.workstreams w =
        some { ws with tasks := replaceTask ws.tasks tid (claimedTask now a task) } ∧
      (claimTask now w tid a sys).2.state.version = sys.state.version + 1 ∧
      (claimTask now w tid a sys).2.state.updated_at = now ∧
      (claimTask now w tid a sys).2.journal = sys.journal ++
        [⟨now, a, "task_claimed",
          [("workstream", some w), ("task_id", some tid)]⟩]) := by
  refine ⟨?_, ?_, ?_, ?_⟩
  · intro hw
    simp [claimTask, hw]
  · intro ws hw hf
    simp [claimTask, hw, hf]
  · intro ws task hw hf hp
    simp [claimTask, hw, hf, hp]
  · intro ws task hw hf hp
    rw [claimTask_ok_eq now w tid a sys ws task hw hf hp]
    exact ⟨rfl, rfl, rfl, rfl, by simp [saveState, alookup_aset], rfl, rfl, rfl⟩

/-- A pending task used by the task-claim witnesses. -/
def taskWit : Task := ⟨"aabbccdd", "T", "", "pending", 5, none, none, 0, 0, none⟩

/-- The workstream "w" holding only `taskWit`. -/
def wsC3 : Workstream := ⟨"", 5, "active", [taskWit], 0⟩

/-- A system whose only workstream "w" holds the single pending `taskWit`. -/
def sysC3 : Sys := ⟨⟨2, 0, [("w", wsC3)], [], []⟩, []⟩

/-- Witness for C3: claiming the concrete pending task succeeds, flips it to
`in_progress` assigned to "a1", persists and journals. -/
theorem claimTask_errors_and_success_witness :
    (claimTask 9 "w" "aabbccdd" "a1" sysC3).1 = .ok (claimedTask 9 "a1" taskWit) ∧
    (claimedTask 9 "a1" taskWit).status = "in_progress" ∧
    (claimedTask 9 "a1" taskWit).assigned_to = some "a1" ∧
    (claimedTask 9 "a1" taskWit).updated_at = 9 ∧
    alookup (claimTask 9 "w" "aabbccdd" "a1" sysC3).2.state.workstreams "w" =
      some { wsC3 with tasks := replaceTask wsC3.tasks "aabbccdd" (claimedTask 9 "a1" taskWit) } ∧
    (claimTask 9 "w" "aabbccdd" "a1" sysC3).2.state.version =
      sysC3.state.version + 1 ∧
    (claimTask 9 "w" "aabbccdd" "a1" sysC3).2.state.updated_at = 9 ∧
    (claimTask 9 "w" "aabbccdd" "a1" sysC3).2.journal = sysC3.journal ++
      [⟨9, "a1", "task_claimed",
        [("workstream", some "w"), ("task_id", some "aabbccdd")]⟩] :=
  (claimTask_errors_and_success 9 "w" "aabbccdd" "a1" sysC3).2.2.2 wsC3 taskWit
    rfl rfl rfl

/-! ## C5: completeTask succeeds from any status -/

/-- C5: for every existing workstream and task — whatever the task's current
status, pending, in_progress or done — `completeTask` succeeds: it returns the
task with status `done`, `result` set and `updated_at` bumped, stores it back,
persists (version + 1), and journals `task_completed` whose event agent is the
task's current assignee, or "system" when the task is unassigned (the code
treats a null and an empty-string `assigned_to` alike as unassigned); NotFound
is raised exactly when the workstream or the task is absent. -/
theorem completeTask_any_status (now : Nat) (w tid : String)
    (res : Option String) (sys : Sys) :
    (alookup sys.state.workstreams w = none →
      completeTask now w tid res sys =
        (.error (.notFound ("Workstream \"" ++ w ++ "\" not found")), sys)) ∧
    (∀ ws, alookup sys.state.workstreams w = some ws →
      ws.tasks.find? (fun t => t.id == tid) = none →
      completeTask now w tid res sys =
        (.error (.notFound ("Task \"" ++ tid ++ "\" not found")), sys)) ∧
    (∀ ws task, alookup sys.state.workstreams w = some ws →
      ws.tasks.find? (fun t => t.id == tid) = some task →
      (completeTask now w tid res sys).1 = .ok (completedTask now res task) ∧
      (completedTask now res task).status = "done" ∧
      (completedTask now res task).result = res ∧
      (completedTask now res task).updated_at = now ∧
      alookup (completeTask now w tid res sys).2.state.workstreams w =
        some { ws with tasks := replaceTask ws.tasks tid (completedTask now res task) } ∧
      (completeTask now w tid res sys).2.state.version = sys.state.version + 1 ∧
      (completeTask now w tid res sys).2.state.updated_at = now ∧
      (completeTask now w tid res sys).2.journal = sys.journal ++
        [⟨now, jsOrString task.assigned_to "system", "task_completed",
          [("workstream", some w), ("task_id", some tid), ("result", res)]⟩]) := by
  refine ⟨?_, ?_, ?_⟩
  · intro hw
    simp [completeTask, hw]
  · intro ws hw hf
    simp [completeTask, hw, hf]
  · intro ws task hw hf
    refine ⟨?_, rfl, rfl, rfl, ?_, ?_, ?_, ?_⟩ <;>
      simp [completeTask, hw, hf, saveState, alookup_aset, logEvent]

/-- A task already in status `done`, assigned to "a1". -/
def taskDone : Task :=
  ⟨"aabbccdd", "T", "", "done", 5, none, some "a1", 0, 1, none⟩

/-- The workstream "w" holding only `taskDone`. -/
def wsC5 : Workstream := ⟨"", 5, "active", [taskDone], 0⟩

/-- A system whose only workstream "w" holds the single done `taskDone`. -/
def sysC5 : Sys := ⟨⟨3, 1, [("w", wsC5)], [], []⟩, []⟩

/-- Witness for C5: completing a task that is already `done` (not pending or
in_progress) still succeeds, and the journal's event agent is the task's
assignee "a1". -/
theorem completeTask_any_status_witness :
    (completeTask 9 "w" "aabbccdd" (some "R") sysC5).1 =
      .ok (completedTask 9 (some "R") taskDone) ∧
    (completedTask 9 (some "R") taskDone).status = "done" ∧
    (completedTask 9 (some "R") taskDone).result = some "R" ∧
    (completedTask 9 (some "R") taskDone).updated_at = 9 ∧
    alookup (completeTask 9 "w" "aabbccdd" (some "R") sysC5).2.state.workstreams
        "w" =
      some { wsC5 with tasks := replaceTask wsC5.tasks "aabbccdd" (completedTask 9 (some "R") taskDone) } ∧
    (completeTask 9 "w" "aabbccdd" (some "R") sysC5).2.state.version =
      sysC5.state.version + 1 ∧
    (completeTask 9 "w" "aabbccdd" (some "R") sysC5).2.state.updated_at = 9 ∧
    (completeTask 9 "w" "aabbccdd" (some "R") sysC5).2.journal =
      sysC5.journal ++
        [⟨9, jsOrString taskDone.assigned_to "system", "task_completed",
          [("workstream", some "w"), ("task_id", some "aabbccdd"),
           ("result", some "R")]⟩] :=
  (completeTask_any_status 9 "w" "aabbccdd" (some "R") sysC5).2.2 wsC5 taskDone
    rfl rfl

/-! ## C6: failing calls leave state and journal untouched -/

/-- C6: every failing engine call leaves the persisted state unchanged and
appends no journal entry.  In particular a denied `acquireLock` (held,
unexpired, different holder) returns `false` with the system untouched, and a
second `createWorkstream` under an existing name raises AlreadyExists with
the system exactly as it was after the first call; in addition every
error-returning path of the other operations returns the input system. -/
theorem failing_calls_leave_state_unchanged (now : Nat) (sys : Sys) :
    (∀ r a ttl l, alookup sys.state.locks r = some l →
      now < l.acquired_at + l.ttl_ms → l.agent ≠ a →
      acquireLock now r a ttl sys = (false, sys)) ∧
    (∀ n o ws1 sys1, createWorkstream now n o sys = (.ok ws1, sys1) →
      ∀ now2 o2, createWorkstream now2 n o2 sys1 =
        (.error (.alreadyExists ("Workstream \"" ++ n ++ "\" already exists")),
         sys1)) ∧
    (∀ n o e, (createWorkstream now n o sys).1 = .error e →
      (createWorkstream now n o sys).2 = sys) ∧
    (∀ b w o e, (addTask now b w o sys).1 = .error e →
      (addTask now b w o sys).2 = sys) ∧
    (∀ w tid a e, (claimTask now w tid a sys).1 = .error e →
      (claimTask now w tid a sys).2 = sys) ∧
    (∀ w tid r e, (completeTask now w tid r sys).1 = .error e →
      (completeTask now w tid r sys).2 = sys) ∧
    (∀ w a e, (getNextTask now w a sys).1 = .error e →
      (getNextTask now w a sys).2 = sys) ∧
    (∀ r a ttl, (acquireLock now r a ttl sys).1 = false →
      (acquireLock now r a ttl sys).2 = sys) ∧
    (∀ r a, (releaseLock now r a sys).1 = false →
      (releaseLock now r a sys).2 = sys) := by
  have hclaimU : ∀ w tid a e, (claimTask now w tid a sys).1 = .error e →
      (claimTask now w tid a sys).2 = sys := by
    intro w tid a e h
    cases hw : alookup sys.state.workstreams w with
    | none => simp [claimTask, hw]
    | some ws =>
      cases hf : ws.tasks.find? (fun t => t.id == tid) with
      | none => simp [claimTask, hw, hf]
      | some task =>
        by_cases hp : task.status = "pending"
        · rw [claimTask_ok_eq now w tid a sys ws task hw hf hp] at h
          simp at h
        · simp [claimTask, hw, hf, hp]
  refine ⟨?_, ?_, ?_, ?_, hclaimU, ?_, ?_, ?_, ?_⟩
  · intro r a ttl l hl h1 h2
    have hd : (decide (now < l.acquired_at + l.ttl_ms) && (l.agent != a)) = true := by
      simp [h1, h2]
    simp [acquireLock, hl, hd]
  · intro n o ws1 sys1 h now2 o2
    cases hw : alookup sys.state.workstreams n with
    | some ws0 => simp [createWorkstream, hw] at h
    | none =>
      simp only [createWorkstream, hw] at h
      rw [Prod.mk.injEq] at h
      obtain ⟨-, h2⟩ := h
      subst h2
      simp [createWorkstream, saveState, alookup_aset]
  · intro n o e h
    cases hw : alookup sys.state.workstreams n with
    | some ws0 => simp [createWorkstream, hw]
    | none => simp [createWorkstream, hw] at h
  · intro b w o e h
    cases hw : alookup sys.state.workstreams w with
    | none => simp [addTask, hw]
    | some ws0 => simp [addTask, hw] at h
  · intro w tid r e h
    cases hw : alookup sys.state.workstreams w with
    | none => simp [completeTask, hw]
    | some ws0 =>
      cases hf : ws0.tasks.find? (fun t => t.id == tid) with
      | none => simp [completeTask, hw, hf]
      | some task => simp [completeTask, hw, hf] at h
  · intro w a e h
    cases hw : alookup sys.state.workstreams w with
    | none => simp [getNextTask, hw]
    | some ws0 =>
      cases hs : sortByPriority (ws0.tasks.filter (fun t => t.status == "pending")) with
      | nil => simp [getNextTask, hw, hs]
      | cons t rest =>
        cases hc : claimTask now w t.id a sys with
        | mk r1 sys2 =>
          cases r1 with
          | ok t2 => simp [getNextTask, hw, hs, hc] at h
          | error e1 =>
            have := hclaimU w t.id a e1 (by rw [hc])
            rw [hc] at this
            simp only [getNextTask, hw, hs, hc]
            exact this
  · intro r a ttl h
    cases hl : alookup sys.state.locks r with
    | none => simp [acquireLock, hl] at h
    | some l =>
      rcases Bool.eq_false_or_eq_true
          (decide (now < l.acquired_at + l.ttl_ms) && (l.agent != a)) with hd | hd
      · simp [acquireLock, hl, hd]
      · simp [acquireLock, hl, hd] at h
  · intro r a h
    cases hl : alookup sys.state.locks r with
    | none => simp [releaseLock, hl]
    | some l =>
      by_cases hag : l.agent = a
      · simp [releaseLock, hl, hag] at h
      · simp [releaseLock, hl, hag]

/-- Witness for C6: creating "w" a second time on the concrete post-creation
system `sysWit` raises AlreadyExists and returns `sysWit` untouched. -/
theorem failing_calls_leave_state_unchanged_witness :
    createWorkstream 6 "w" ⟨none, none⟩ sysWit =
      (.error (.alreadyExists "Workstream \"w\" already exists"), sysWit) :=
  (failing_calls_leave_state_unchanged 5 sysEmpty).2.1 "w" ⟨none, none⟩
    wsWit sysWit rfl 6 ⟨none, none⟩

/-! ## C7: addTask result shape -/

theorem hexDigit_mem (n : Nat) : hexDigit n ∈ "0123456789abcdef".toList := by
  simp only [hexDigit]
  by_cases h : n < ("0123456789abcdef".toList).length
  · rw [List.getD_eq_getElem _ _ h]
    exact List.getElem_mem h
  · rw [List.getD_eq_default _ _ (Nat.le_of_not_lt h)]
    decide

theorem genId_length (bytes : List Nat) : (genId bytes).length = 2 * bytes.length := by
  show ((bytes.map byteToHex).flatten).length = 2 * bytes.length
  induction bytes with
  | nil => rfl
  | cons b r ih =>
    simp only [List.map_cons, List.flatten_cons, List.length_append, ih, byteToHex]
    simp only [List.length_cons, List.length_nil]
    omega

theorem genId_chars (bytes : List Nat) :
    ∀ c ∈ (genId bytes).toList, c ∈ "0123456789abcdef".toList := by
  intro c hc
  rw [show (genId bytes).toList = (bytes.map byteToHex).flatten from rfl] at hc
  rw [List.mem_flatten] at hc
  obtain ⟨l2, hl2, hcl⟩ := hc
  rw [List.mem_map] at hl2
  obtain ⟨b, -, rfl⟩ := hl2
  simp only [byteToHex, List.mem_cons, List.not_mem_nil, or_false] at hcl
  rcases hcl with rfl | rfl <;> exact hexDigit_mem _

/-- Counterexample to C7 as stated: `addTask` with the caller-supplied
priority 0 yields a task of priority 5, not 0, because the code's
`opts.priority || 5` treats the integer 0 as falsy. -/
theorem addTask_priority_zero_cex :
    (addTask 6 [1, 2, 3, 4] "w" ⟨"T", none, some 0, none⟩ sysWit).1 =
      .ok ⟨"01020304", "T", "", "pending", 5, none, none, 6, 6, none⟩ ∧
    (5 : Int) ≠ 0 :=
  ⟨rfl, by decide⟩

/-- C7 (amended): on an existing workstream, `addTask` with 4 random bytes
returns a task whose identifier is 8 lowercase hex characters, whose status
is `pending`, whose title is the given title, and whose priority is the
caller-supplied integer priority when one is provided and non-zero, and 5
when the priority is absent or 0 (the code's `||` default treats 0 as
falsy). -/
theorem addTask_spec (now : Nat) (idBytes : List Nat) (w : String)
    (opts : TaskOpts) (sys : Sys) (ws : Workstream)
    (hw : alookup sys.state.workstreams w = some ws)
    (hb : idBytes.length = 4) :
    (addTask now idBytes w opts sys).1.isOk = true ∧
    (∀ t sys2, addTask now idBytes w opts sys = (.ok t, sys2) →
      t.id.length = 8 ∧
      (∀ c ∈ t.id.toList, c ∈ "0123456789abcdef".toList) ∧
      t.status = "pending" ∧
      t.title = opts.title ∧
      (∀ p, opts.priority = some p → p ≠ 0 → t.priority = p) ∧
      ((opts.priority = none ∨ opts.priority = some 0) → t.priority = 5)) := by
  constructor
  · simp only [addTask, hw]
    rfl
  · intro t sys2 h
    simp only [addTask, hw] at h
    rw [Prod.mk.injEq] at h
    obtain ⟨h1, -⟩ := h
    rw [Except.ok.injEq] at h1
    subst h1
    refine ⟨?_, ?_, rfl, rfl, ?_, ?_⟩
    · show (genId idBytes).length = 8
      rw [genId_length, hb]
    · exact genId_chars idBytes
    · intro p hp hp0
      simp [jsOrInt, hp, hp0]
    · rintro (hp | hp) <;> simp [jsOrInt, hp]

/-- The task produced by the concrete `addTask` call of the C7 witness. -/
def taskC7 : Task := ⟨"01020304", "T", "", "pending", 3, none, none, 6, 6, none⟩

/-- The system produced by that call on `sysWit`. -/
def sysC7out : Sys :=
  ⟨⟨2, 6, [("w", ⟨"", 5, "active", [taskC7], 5⟩)], [], []⟩,
   [⟨5, "system", "workstream_created", [("workstream", some "w")]⟩,
    ⟨6, "system", "task_created",
      [("workstream", some "w"), ("task_id", some "01020304"),
       ("title", some "T")]⟩]⟩

/-- Witness for C7 (amended): a concrete `addTask` with priority 3 on the
existing workstream "w" yields an 8-character id, status pending, title "T"
and priority 3. -/
theorem addTask_spec_witness :
    taskC7.id.length = 8 ∧ taskC7.status = "pending" ∧ taskC7.title = "T" ∧
      taskC7.priority = 3 := by
  have h := (addTask_spec 6 [1, 2, 3, 4] "w" ⟨"T", none, some 3, none⟩ sysWit
    wsWit rfl rfl).2 taskC7 sysC7out rfl
  exact ⟨h.1, h.2.2.1, h.2.2.2.1, h.2.2.2.2.1 3 rfl (by decide)⟩

/-! ## C8: event query filters and truncation -/

/-- The agent filter of C8 as a single predicate (true when the option is
absent or empty, i.e. falsy in the code's guard). -/
def agentPred (oa : Option String) (e : Event) : Bool :=
  match oa with
  | some a => if a = "" then true else e.agent == a
  | none => true

/-- The action filter of C8 as a single predicate. -/
def actionPred (ob : Option String) (e : Event) : Bool :=
  match ob with
  | some b => if b = "" then true else e.action == b
  | none => true

/-- The since filter of C8 as a single predicate (`ts ≥ since`). -/
def sincePred (os : Option Nat) (e : Event) : Bool :=
  match os with
  | some s => if s = 0 then true else decide (s ≤ e.ts)
  | none => true

/-- Transcription of C8's conjunctive filter, following the spec's words:
agent equality, action equality and `ts ≥ since` applied conjunctively. -/
def matchesQuery (opts : QueryOpts) (e : Event) : Bool :=
  agentPred opts.agent e && actionPred opts.action e && sincePred opts.since e

/-- One event used by the C8 counterexample and witness. -/
def evWit : Event := ⟨1, "a1", "act", []⟩

/-- A second event used by the C8 witness. -/
def evWit2 : Event := ⟨2, "a1", "act2", []⟩

/-- Counterexample to C8 as stated: with `last = 0` the code's truthiness
guard skips the truncation entirely, so the query returns 1 record even
though the claim ("for every N the result never contains more than N
records") demands at most 0. -/
theorem getEvents_last_zero_cex :
    (getEvents ⟨none, none, none, some 0⟩ [evWit]).length = 1 ∧
      ¬ ((1 : Nat) ≤ 0) :=
  ⟨rfl, by decide⟩

/-- C8 (amended): the event query applies its (truthy) filters conjunctively,
and when a non-zero `last = N` is given it returns exactly the final N
matching records in their original append order — in particular at most N
records; `last = 0` is treated like an absent `last` (no truncation). -/
theorem getEvents_spec (opts : QueryOpts) (events : List Event) :
    (opts.last = none → getEvents opts events = events.filter (matchesQuery opts)) ∧
    (opts.last = some 0 → getEvents opts events = events.filter (matchesQuery opts)) ∧
    (∀ n, opts.last = some n → n ≠ 0 →
      getEvents opts events =
        (events.filter (matchesQuery opts)).drop
          ((events.filter (matchesQuery opts)).length - n) ∧
      (getEvents opts events).length ≤ n) := by
  obtain ⟨oa, ob, os, ol⟩ := opts
  have hcore : ∀ ol2 : Option Nat,
      getEvents ⟨oa, ob, os, none⟩ events =
        events.filter (matchesQuery ⟨oa, ob, os, ol2⟩) := by
    intro ol2
    rcases oa with _ | a <;> rcases ob with _ | b <;> rcases os with _ | s <;>
      simp only [getEvents] <;>
      (try split_ifs) <;>
      (try simp only [List.filter_filter]) <;>
      first
        | (apply List.filter_congr
           intro e he
           simp_all [matchesQuery, agentPred, actionPred, sincePred,
             Bool.and_assoc, Bool.and_comm, Bool.and_left_comm])
        | (symm
           rw [List.filter_eq_self]
           intro e he
           simp_all [matchesQuery, agentPred, actionPred, sincePred,
             Bool.and_assoc, Bool.and_comm, Bool.and_left_comm])
  refine ⟨?_, ?_, ?_⟩
  · intro h
    subst h
    exact hcore none
  · intro h
    subst h
    have h1 : getEvents ⟨oa, ob, os, some 0⟩ events =
        getEvents ⟨oa, ob, os, none⟩ events := by
      simp [getEvents]
    rw [h1, hcore (some 0)]
  · intro n h hn
    subst h
    have h1 : getEvents ⟨oa, ob, os, some n⟩ events =
        (getEvents ⟨oa, ob, os, none⟩ events).drop
          ((getEvents ⟨oa, ob, os, none⟩ events).length - n) := by
      simp only [getEvents]
      rw [if_neg hn]
    rw [h1, hcore (some n)]
    refine ⟨rfl, ?_⟩
    rw [List.length_drop]
    omega

/-- Witness for C8 (amended): a concrete query with `agent = "a1"` and
`last = 1` over a two-event journal returns the final matching record only. -/
theorem getEvents_spec_witness :
    getEvents ⟨some "a1", none, none, some 1⟩ [evWit, evWit2] =
      ([evWit, evWit2].filter
          (matchesQuery ⟨some "a1", none, none, some 1⟩)).drop
        (([evWit, evWit2].filter
            (matchesQuery ⟨some "a1", none, none, some 1⟩)).length - 1) ∧
    (getEvents ⟨some "a1", none, none, some 1⟩ [evWit, evWit2]).length ≤ 1 :=
  (getEvents_spec ⟨some "a1", none, none, some 1⟩ [evWit, evWit2]).2.2 1 rfl
    (by decide)

/-! ## C4: getNextTask selects the first lowest-priority pending task -/

theorem insertByPriority_ne_nil (t : Task) (l : List Task) :
    insertByPriority t l ≠ [] := by
  cases l with
  | nil => simp [insertByPriority]
  | cons u rest =>
    simp only [insertByPriority]
    split <;> simp

theorem sortByPriority_eq_nil (l : List Task) (h : sortByPriority l = []) :
    l = [] := by
  cases l with
  | nil => rfl
  | cons x xs =>
    exact absurd h (insertByPriority_ne_nil x (sortByPriority xs))

theorem mem_insertByPriority (t u : Task) (l : List Task) :
    u ∈ insertByPriority t l ↔ u = t ∨ u ∈ l := by
  induction l with
  | nil => simp [insertByPriority]
  | cons v rest ih =>
    simp only [insertByPriority]
    split
    · simp [List.mem_cons]
    · simp only [List.mem_cons, ih]
      tauto

theorem mem_sortByPriority (l : List Task) (u : Task) :
    u ∈ sortByPriority l ↔ u ∈ l := by
  induction l with
  | nil => simp [sortByPriority]
  | cons x xs ih =>
    simp only [sortByPriority, mem_insertByPriority, ih, List.mem_cons]

theorem find?_of_stronger {α : Type} (l : List α) (p q : α → Bool) (m : α)
    (hfind : l.find? p = some m)
    (himp : ∀ t, q t = true → p t = true)
    (hm : q m = true) :
    l.find? q = some m := by
  induction l with
  | nil => simp at hfind
  | cons a as ih =>
    cases hpa : p a with
    | true =>
      rw [List.find?_cons_of_pos as hpa] at hfind
      rw [Option.some.injEq] at hfind
      subst hfind
      rw [List.find?_cons_of_pos as hm]
    | false =>
      rw [List.find?_cons_of_neg as (by simp [hpa])] at hfind
      have hqa : q a = false := by
        cases hqa : q a with
        | true => exact absurd (himp a hqa) (by simp [hpa])
        | false => rfl
      rw [List.find?_cons_of_neg as (by simp [hqa])]
      exact ih hfind

/-- The head of the stable priority sort of a list is exactly the first
element of the list whose priority is minimal over the whole list. -/
theorem head?_sortByPriority (l : List Task) :
    (sortByPriority l).head? =
      l.find? (fun t => l.all (fun u => t.priority ≤ u.priority)) := by
  induction l with
  | nil => rfl
  | cons x xs ih =>
    simp only [sortByPriority]
    cases hs : sortByPriority xs with
    | nil =>
      have hxs : xs = [] := sortByPriority_eq_nil xs hs
      subst hxs
      simp [insertByPriority]
    | cons m r =>
      rw [hs] at ih
      have hfind : xs.find?
          (fun t => xs.all (fun u => decide (t.priority ≤ u.priority))) = some m :=
        ih.symm
      have hmin : ∀ u ∈ xs, m.priority ≤ u.priority := by
        have h0 := List.find?_some hfind
        simp only [List.all_eq_true, decide_eq_true_eq] at h0
        exact h0
      have hpm : (xs.all (fun u => decide (m.priority ≤ u.priority))) = true :=
        List.all_eq_true.mpr (fun u hu => decide_eq_true (hmin u hu))
      by_cases hxm : x.priority ≤ m.priority
      · simp only [insertByPriority, if_pos hxm]
        rw [List.find?_cons_of_pos]
        · rfl
        · simp only [List.all_cons, Bool.and_eq_true]
          exact ⟨decide_eq_true le_rfl, List.all_eq_true.mpr
            (fun u hu => decide_eq_true (le_trans hxm (hmin u hu)))⟩
      · simp only [insertByPriority, if_neg hxm]
        have hmlt : m.priority ≤ x.priority := le_of_lt (lt_of_not_le hxm)
        have hxfalse : (xs.all (fun u => decide (x.priority ≤ u.priority))) = false := by
          cases hh : xs.all (fun u => decide (x.priority ≤ u.priority)) with
          | true =>
            exact absurd (of_decide_eq_true (List.all_eq_true.mp hh m
              ((mem_sortByPriority xs m).mp (hs ▸ List.mem_cons_self m r)))) hxm
          | false => rfl
        rw [List.find?_cons_of_neg]
        · rw [find?_of_stronger xs _
            (fun t => (x :: xs).all (fun u => decide (t.priority ≤ u.priority))) m
            hfind ?_ ?_]
          · rfl
          · intro t ht
            simp only [List.all_cons, Bool.and_eq_true] at ht
            exact ht.2
          · simp only [List.all_cons, Bool.and_eq_true]
            exact ⟨decide_eq_true hmlt, hpm⟩
        · simp only [List.all_cons, hxfalse, Bool.and_false]
          simp

/-- Transcription of C4's selection rule, following the spec's words: among
the tasks with status pending, in stored order, the first one whose priority
is (weakly) lowest over all pending tasks. -/
def firstLowestPending (tasks : List Task) : Option Task :=
  let pending := tasks.filter (fun t => t.status == "pending")
  pending.find? (fun t => pending.all (fun u => t.priority ≤ u.priority))

theorem find?_id_of_nodup (l : List Task) (t : Task)
    (hnd : (l.map Task.id).Nodup) (ht : t ∈ l) :
    l.find? (fun u => u.id == t.id) = some t := by
  induction l with
  | nil => simp at ht
  | cons a as ih =>
    rw [List.map_cons, List.nodup_cons] at hnd
    rcases List.mem_cons.mp ht with rfl | hmem
    · rw [List.find?_cons_of_pos as (by simp)]
    · have hne : a.id ≠ t.id := by
        intro he
        apply hnd.1
        rw [he]
        exact List.mem_map_of_mem Task.id hmem
      rw [List.find?_cons_of_neg as (by simp [hne])]
      exact ih hnd.2 hmem

/-- C4: on an existing workstream whose task ids are distinct (the spec's
per-workstream id-uniqueness invariant), `getNextTask` returns the "no task"
sentinel — not an error — exactly when no pending task exists; otherwise it
claims, for the requesting agent, the first pending task of minimal priority
in the stored sequence (lowest priority value, ties broken by creation
order), and returns it with status `in_progress` and `assigned_to` the
agent. -/
theorem getNextTask_spec (now : Nat) (w a : String) (sys : Sys)
    (ws : Workstream)
    (hw : alookup sys.state.workstreams w = some ws)
    (hnd : (ws.tasks.map Task.id).Nodup) :
    (ws.tasks.filter (fun t => t.status == "pending") = [] →
      getNextTask now w a sys = (.ok none, sys)) ∧
    (∀ t, firstLowestPending ws.tasks = some t →
      (getNextTask now w a sys).1 = .ok (some (claimedTask now a t)) ∧
      (claimedTask now a t).status = "in_progress" ∧
      (claimedTask now a t).assigned_to = some a ∧
      (claimedTask now a t).priority = t.priority ∧
      t.status = "pending" ∧
      (∀ u ∈ ws.tasks.filter (fun t2 => t2.status == "pending"),
        t.priority ≤ u.priority) ∧
      alookup (getNextTask now w a sys).2.state.workstreams w =
        some { ws with tasks := replaceTask ws.tasks t.id (claimedTask now a t) } ∧
      (getNextTask now w a sys).2.state.version = sys.state.version + 1) := by
  constructor
  · intro hp
    simp [getNextTask, hw, hp, sortByPriority]
  · intro t hfl
    simp only [firstLowestPending] at hfl
    have hhead : (sortByPriority
        (ws.tasks.filter (fun t2 => t2.status == "pending"))).head? = some t := by
      rw [head?_sortByPriority]
      exact hfl
    obtain ⟨r, hs⟩ : ∃ r, sortByPriority
        (ws.tasks.filter (fun t2 => t2.status == "pending")) = t :: r := by
      cases hsp : sortByPriority (ws.tasks.filter (fun t2 => t2.status == "pending")) with
      | nil =>
        rw [hsp] at hhead
        simp at hhead
      | cons t0 r0 =>
        rw [hsp] at hhead
        rw [List.head?_cons, Option.some.injEq] at hhead
        subst hhead
        exact ⟨r0, rfl⟩
    have htmem_p : t ∈ ws.tasks.filter (fun t2 => t2.status == "pending") :=
      List.mem_of_find?_eq_some hfl
    have htmem : t ∈ ws.tasks := (List.mem_filter.mp htmem_p).1
    have htpend : t.status = "pending" := by
      have := (List.mem_filter.mp htmem_p).2
      exact eq_of_beq this
    have hmin : ∀ u ∈ ws.tasks.filter (fun t2 => t2.status == "pending"),
        t.priority ≤ u.priority := by
      have h0 := List.find?_some hfl
      simp only [List.all_eq_true, decide_eq_true_eq] at h0
      exact h0
    have hfindid : ws.tasks.find? (fun u => u.id == t.id) = some t :=
      find?_id_of_nodup ws.tasks t hnd htmem
    have hclaim := claimTask_ok_eq now w t.id a sys ws t hw hfindid htpend
    have hgnt : getNextTask now w a sys =
        (.ok (some (claimedTask now a t)),
         ⟨saveState now { sys.state with
            workstreams := aset sys.state.workstreams w
              { ws with tasks := replaceTask ws.tasks t.id (claimedTask now a t) } },
          sys.journal ++
            [⟨now, a, "task_claimed",
              [("workstream", some w), ("task_id", some t.id)]⟩]⟩) := by
      simp only [getNextTask, hw, hs, hclaim]
    rw [hgnt]
    exact ⟨rfl, rfl, rfl, rfl, htpend, hmin,
      by simp [saveState, alookup_aset], rfl⟩

/-- A pending task of priority 3. -/
def taskP3 : Task := ⟨"aaaaaaaa", "A", "", "pending", 3, none, none, 0, 0, none⟩

/-- A pending task of priority 1, created after `taskP3`. -/
def taskP1 : Task := ⟨"bbbbbbbb", "B", "", "pending", 1, none, none, 0, 0, none⟩

/-- The workstream "w" holding `taskP3` then `taskP1`. -/
def wsC4 : Workstream := ⟨"", 5, "active", [taskP3, taskP1], 0⟩

/-- A system whose only workstream "w" holds pending tasks of priorities 3
and 1 (in that creation order). -/
def sysC4 : Sys := ⟨⟨4, 0, [("w", wsC4)], [], []⟩, []⟩

/-- Witness for C4: with priorities 3 and 1 present, `getNextTask` claims and
returns the priority-1 task for the requesting agent. -/
theorem getNextTask_spec_witness :
    (getNextTask 9 "w" "a1" sysC4).1 = .ok (some (claimedTask 9 "a1" taskP1)) ∧
      (claimedTask 9 "a1" taskP1).status = "in_progress" ∧
      (claimedTask 9 "a1" taskP1).assigned_to = some "a1" ∧
      (claimedTask 9 "a1" taskP1).priority = taskP1.priority := by
  have h := (getNextTask_spec 9 "w" "a1" sysC4 wsC4 rfl (by decide)).2 taskP1
    (by decide)
  exact ⟨h.1, h.2.1, h.2.2.1, h.2.2.2.1⟩

end Orchestrator
